import Mathlib

/-!
Shallow embedding of the tndrl/latis control-plane daemon, verified against
the claims of its specification.  Each section embeds one Go component:

* `Control`  — `pkg/control` state machine (`State`) and the `Shutdown` RPC
  handler (`Server.Shutdown`).
* `Serve`    — the daemon's shutdown orchestration (`triggerShutdown`,
  `stopServers` in the serve command).
* `Quic`     — `pkg/transport/quic`: the listener's per-connection stream
  routing loop (`handleConnection`), the per-stream-type listener handle
  (`streamListenerClose`), and the dialer (`MuxDialer.Dial` retry logic and
  the `getOrCreateConn` double-checked race).
* `Pki`      — `pkg/pki` leaf-certificate minting (`GenerateCert`).
* `A2aexec`  — `pkg/a2aexec` streaming executor (`executeStreaming`).
-/

namespace Control

/-- The node lifecycle enum (proto `NodeState` / `UnitState`,
`STARTING=1, READY=2, BUSY=3, DRAINING=4, STOPPED=5`).  The Go code stores
it in an `atomic.Int32`; the claims only depend on which value is stored,
so it is embedded as an inductive. -/
inductive UnitState
  | starting
  | ready
  | busy
  | draining
  | stopped
deriving DecidableEq, Repr

/-- Two's-complement wraparound into the `int32` range, modelling Go's
`atomic.Int32.Add` (`2147483648 = 2^31`, `4294967296 = 2^32`). -/
def wrap32 (v : Int) : Int :=
  (v + 2147483648) % 4294967296 - 2147483648

/-- `control.State`: lifecycle state plus active-task counter, both atomic
`int32`s in the Go struct.  `startTime`, `identity` and the metadata map are
omitted: no claim formalised here depends on them. -/
structure State where
  state : UnitState
  activeTasks : Int
deriving DecidableEq, Repr

/-- `NewState`: a fresh `State` in STARTING mode with a zero task counter. -/
def NewState : State :=
  { state := .starting, activeTasks := 0 }

/-- Go `atomic.Int32.CompareAndSwap` on the state enum: store `new` iff the
current value is `old`. -/
def cas (cur old new : UnitState) : UnitState :=
  if cur = old then new else cur

/-- `State.SetReady`: unconditional store READY. -/
def State.SetReady (s : State) : State :=
  { s with state := .ready }

/-- `State.SetDraining`: unconditional store DRAINING. -/
def State.SetDraining (s : State) : State :=
  { s with state := .draining }

/-- `State.SetStopped`: unconditional store STOPPED. -/
def State.SetStopped (s : State) : State :=
  { s with state := .stopped }

/-- `State.IncrementTasks`: `activeTasks.Add(1)` then CAS READY → BUSY. -/
def State.IncrementTasks (s : State) : State :=
  { state := cas s.state .ready .busy,
    activeTasks := wrap32 (s.activeTasks + 1) }

/-- `State.DecrementTasks`: `activeTasks.Add(-1)`; if the new value is `0`,
CAS BUSY → READY.  The decrement itself is unconditional. -/
def State.DecrementTasks (s : State) : State :=
  let t := wrap32 (s.activeTasks - 1)
  { state := if t = 0 then cas s.state .busy .ready else s.state,
    activeTasks := t }

/-- `State.GetState` observer. -/
def State.GetState (s : State) : UnitState :=
  s.state

/-- `State.GetActiveTasks` observer. -/
def State.GetActiveTasks (s : State) : Int :=
  s.activeTasks

/-- One invocation of a public mutating `State` operation. -/
inductive Op
  | setReady
  | setDraining
  | setStopped
  | inc
  | dec
deriving DecidableEq, Repr

/-- Dispatch one operation. -/
def applyOp (s : State) : Op → State
  | .setReady => s.SetReady
  | .setDraining => s.SetDraining
  | .setStopped => s.SetStopped
  | .inc => s.IncrementTasks
  | .dec => s.DecrementTasks

/-- Run a sequence of operations from a given state. -/
def runFrom (s : State) : List Op → State
  | [] => s
  | op :: rest => runFrom (applyOp s op) rest

/-- Run a sequence of operations from the initial `NewState`. -/
def runOps (ops : List Op) : State :=
  runFrom NewState ops

/-- Task bracketing: starting from balance `bal`, no decrement ever runs
when the running `IncrementTasks`/`DecrementTasks` balance is zero.  This is
the discipline "IncrementTasks/DecrementTasks bracket each task". -/
def brackOk : List Op → Nat → Bool
  | [], _ => true
  | .inc :: rest, bal => brackOk rest (bal + 1)
  | .dec :: rest, bal => bal != 0 && brackOk rest (bal - 1)
  | _ :: rest, bal => brackOk rest bal

end Control

namespace Serve

/-- One step of the daemon's shutdown path, in the order the serve command
executes them (`triggerShutdown` / `stopServers`). -/
inductive ShutdownEvent
  | setDraining
  | scheduleForceStopWatchdog (timeout : Int)
  | cancelRootScope
  | closeListener
  | gracefulStopControl
  | gracefulStopA2A
  | hardStopControl
  | hardStopA2A
  | setStopped
deriving DecidableEq, Repr

/-- `server.stopServers(graceful)`: cancel the root context, close the
`MuxListener` (which closes the acceptor channels), then await
`GracefulStop` (or call `Stop` when not graceful) on the control server and
the A2A server, in program order. -/
def stopServers (graceful : Bool) : List ShutdownEvent :=
  [ShutdownEvent.cancelRootScope, ShutdownEvent.closeListener] ++
    (if graceful then [ShutdownEvent.gracefulStopControl, ShutdownEvent.gracefulStopA2A]
     else [ShutdownEvent.hardStopControl, ShutdownEvent.hardStopA2A])

/-- `server.triggerShutdown(graceful, timeout, reason)`: the sequential
trace of the Go function body.  `timeout` is a `time.Duration`
(nanoseconds); `reason` is only logged and so does not appear in the trace.
The watchdog goroutine is recorded at the point it is spawned. -/
def triggerShutdown (graceful : Bool) (timeout : Int) : List ShutdownEvent :=
  [ShutdownEvent.setDraining] ++
    (if graceful = true ∧ 0 < timeout
     then [ShutdownEvent.scheduleForceStopWatchdog timeout] else []) ++
    stopServers graceful ++ [ShutdownEvent.setStopped]

/-- Index of the first occurrence of an event in a trace (length of the
trace if absent). -/
def idxOfEvent : List ShutdownEvent → ShutdownEvent → Nat
  | [], _ => 0
  | x :: rest, e => if x = e then 0 else idxOfEvent rest e + 1

/-- The two server-stop events `triggerShutdown` awaits, per mode. -/
def stopEvents (graceful : Bool) : List ShutdownEvent :=
  if graceful then [ShutdownEvent.gracefulStopControl, ShutdownEvent.gracefulStopA2A]
  else [ShutdownEvent.hardStopControl, ShutdownEvent.hardStopA2A]

end Serve

namespace Quic

/-- Modelled from the spec: the `StreamType` byte constants are declared in
`mux.go`, which is not among the provided sources (only the listener,
dialer and tests are); the spec fixes `0x01` = Control and `0x02` =
Agent/A2A, all other values reserved. -/
def StreamTypeControl : Nat := 0x01

/-- Modelled from the spec: the Agent/A2A stream-type byte, `0x02`. -/
def StreamTypeA2A : Nat := 0x02

/-- One iteration's input to `MuxListener.handleConnection`: either
`muxConn.AcceptStream` yields a sub-stream (identified by `id`, with its
one-byte type already read), or it fails (transport closed / context
cancelled), which terminates the loop. -/
inductive AcceptOutcome
  | stream (id : Nat) (ty : Nat)
  | acceptError
deriving DecidableEq, Repr

/-- What a run of the per-connection loop did: streams sent to an acceptor
channel (as `(type, id)` pairs, in order), streams closed, and whether the
deferred `delete(l.conns, muxConn)` has run (it runs only when the loop
exits; while the loop is still blocked in `AcceptStream` the connection
stays registered). -/
structure HandleResult where
  delivered : List (Nat × Nat)
  closedStreams : List Nat
  connDeregistered : Bool
deriving DecidableEq, Repr

/-- `MuxListener.handleConnection` (mux_listener.go), over a finite list of
accept outcomes, with the listener running (its context not done, so the
`select` send on the acceptor channel succeeds): a stream whose type is a
key of `l.streams` (Control or A2A) is delivered; an unknown type is
closed, with a warning logged, and the loop continues; an accept error
ends the loop, at which point the deferred deregistration runs. -/
def handleConnection : List AcceptOutcome → HandleResult
  | [] => { delivered := [], closedStreams := [], connDeregistered := false }
  | .acceptError :: _ => { delivered := [], closedStreams := [], connDeregistered := true }
  | .stream id ty :: rest =>
    let r := handleConnection rest
    if ty = StreamTypeControl ∨ ty = StreamTypeA2A then
      { r with delivered := (ty, id) :: r.delivered }
    else
      { r with closedStreams := id :: r.closedStreams }

/-- The mutable parts of a `MuxListener` that `Close` would touch: the
`closed` flag, the tracked connection set, both acceptor channels (closed
flag plus buffered conns), and the underlying `quic.Listener`. -/
structure ChanState where
  chClosed : Bool
  buffered : List Nat
deriving DecidableEq, Repr

/-- Snapshot of a `MuxListener`'s state. -/
structure MuxListenerState where
  closed : Bool
  conns : List Nat
  controlChan : ChanState
  a2aChan : ChanState
  qlClosed : Bool
deriving DecidableEq, Repr

/-- `streamListener.Close` (mux_listener.go:200): the per-stream-type
handle returned by `MuxListener.Listener(streamType)` has a `Close` whose
body is literally `return nil` — individual stream listeners do not close
the whole mux.  It is embedded as the identity on the listener state,
paired with the returned error. -/
def streamListenerClose (m : MuxListenerState) : MuxListenerState × Option String :=
  (m, none)

/-- Environment for one `MuxDialer.Dial` call: the outcomes the two
`getOrCreateConn` calls and the two `muxConn.OpenStream` calls would have,
identified by small codes (`Except` error text / stream id). -/
structure DialEnv where
  acquire1 : Except String Nat
  open1 : Except String Nat
  acquire2 : Except String Nat
  open2 : Except String Nat

/-- Trace of one `MuxDialer.Dial` call: its result, how many times the pool
entry was evicted (`removeConn`), and how many `OpenStream` attempts were
made. -/
structure DialOutcome where
  result : Except String Nat
  evictions : Nat
  openAttempts : Nat

/-- `MuxDialer.Dial` (mux.go, dialer section): get or create the pooled
connection; open a stream of the requested type; if opening fails, evict
the pool entry (`removeConn`), reconnect, and retry the open exactly once,
wrapping a second failure in "open stream after reconnect". -/
def Dial (env : DialEnv) : DialOutcome :=
  match env.acquire1 with
  | .error e => { result := .error e, evictions := 0, openAttempts := 0 }
  | .ok _ =>
    match env.open1 with
    | .ok s => { result := .ok s, evictions := 0, openAttempts := 1 }
    | .error _ =>
      match env.acquire2 with
      | .error e => { result := .error e, evictions := 1, openAttempts := 1 }
      | .ok _ =>
        match env.open2 with
        | .ok s => { result := .ok s, evictions := 1, openAttempts := 2 }
        | .error e =>
          { result := .error (("open stream after reconnect: ") ++ e),
            evictions := 1, openAttempts := 2 }

/-- `MuxDialer.removeConn` over the address-indexed pool: delete the entry
for `addr`, leaving every other address untouched. -/
def removeConn (conns : String → Option Nat) (addr : String) : String → Option Nat :=
  fun a => if a = addr then none else conns a

/-- The two connections two racing `getOrCreateConn` callers can create for
one address:  `connA` by the first goroutine, `connB` by the second. -/
inductive PoolConn
  | connA
  | connB
deriving DecidableEq, Repr, Fintype

/-- Program counter of one goroutine running `getOrCreateConn`: the first
lock-protected pool lookup, the dial outside the lock, the second
lock-protected check-and-publish, and completion. -/
inductive DialPc
  | lookup
  | dialing
  | publishing
  | done
deriving DecidableEq, Repr, Fintype

/-- Joint state of two goroutines racing `getOrCreateConn` for the same
address: the pool entry for that address (`d.conns[addr]`; a Go map holds
at most one value per key), each goroutine's program counter and return
value, and whether each goroutine has dialed its connection, respectively
closed it as the race loser. -/
structure RaceState where
  pool : Option PoolConn
  pcA : DialPc
  pcB : DialPc
  retA : Option PoolConn
  retB : Option PoolConn
  createdA : Bool
  createdB : Bool
  closedA : Bool
  closedB : Bool
deriving DecidableEq, Repr

/-- Initial race state: empty pool, both goroutines about to look up. -/
def raceInit : RaceState :=
  { pool := none, pcA := .lookup, pcB := .lookup, retA := none, retB := none,
    createdA := false, createdB := false, closedA := false, closedB := false }

/-- One atomic step of goroutine A in `getOrCreateConn`: the mutex makes
each of the two map sections atomic; the dial happens outside the lock. -/
def stepA (s : RaceState) : RaceState :=
  match s.pcA with
  | .lookup =>
    match s.pool with
    | some c => { s with retA := some c, pcA := .done }
    | none => { s with pcA := .dialing }
  | .dialing => { s with createdA := true, pcA := .publishing }
  | .publishing =>
    match s.pool with
    | some c => { s with closedA := true, retA := some c, pcA := .done }
    | none => { s with pool := some .connA, retA := some .connA, pcA := .done }
  | .done => s

/-- One atomic step of goroutine B in `getOrCreateConn`. -/
def stepB (s : RaceState) : RaceState :=
  match s.pcB with
  | .lookup =>
    match s.pool with
    | some c => { s with retB := some c, pcB := .done }
    | none => { s with pcB := .dialing }
  | .dialing => { s with createdB := true, pcB := .publishing }
  | .publishing =>
    match s.pool with
    | some c => { s with closedB := true, retB := some c, pcB := .done }
    | none => { s with pool := some .connB, retB := some .connB, pcB := .done }
  | .done => s

/-- Run a schedule (`true` = goroutine A steps, `false` = B steps) from a
given state. -/
def raceRunFrom (s : RaceState) : List Bool → RaceState
  | [] => s
  | t :: rest => raceRunFrom ((if t then stepA else stepB) s) rest

/-- Run a schedule from the initial state. -/
def raceRun (sched : List Bool) : RaceState :=
  raceRunFrom raceInit sched

/-- Inductive invariant of the race: the pool entry is only ever a
connection whose creator has finished publishing it and never closed it; a
closed connection was created by a finished goroutine and lost to an
already-present different pool entry; a finished goroutine returned exactly
the (by then permanent) pool entry; a finished creator's connection is
pooled or closed. -/
def raceInv (s : RaceState) : Prop :=
  (s.pool = some .connA → s.pcA = .done ∧ s.createdA = true ∧ s.closedA = false) ∧
    (s.pool = some .connB → s.pcB = .done ∧ s.createdB = true ∧ s.closedB = false) ∧
    (s.closedA = true → s.pcA = .done ∧ s.createdA = true ∧
      s.pool.isSome = true ∧ s.pool ≠ some .connA) ∧
    (s.closedB = true → s.pcB = .done ∧ s.createdB = true ∧
      s.pool.isSome = true ∧ s.pool ≠ some .connB) ∧
    (s.createdA = true → s.pcA = .publishing ∨ s.pcA = .done) ∧
    (s.createdB = true → s.pcB = .publishing ∨ s.pcB = .done) ∧
    (s.pcA = .publishing → s.createdA = true) ∧
    (s.pcB = .publishing → s.createdB = true) ∧
    (s.createdA = true ∧ s.pcA = .done → s.pool = some .connA ∨ s.closedA = true) ∧
    (s.createdB = true ∧ s.pcB = .done → s.pool = some .connB ∨ s.closedB = true) ∧
    (∀ c, s.retA = some c → s.pcA = .done ∧ s.pool = some c) ∧
    (∀ c, s.retB = some c → s.pcB = .done ∧ s.pool = some c) ∧
    (s.pcA = .done → s.retA.isSome = true) ∧
    (s.pcB = .done → s.retB.isSome = true)

end Quic

namespace Pki

/-- `x509.ExtKeyUsage` values `GenerateCert` can set. -/
inductive ExtKeyUsage
  | serverAuth
  | clientAuth
deriving DecidableEq, Repr

/-- Environment for one `GenerateCert` call: whether each fallible step
(ECDSA key generation, 128-bit serial generation, `url.Parse` of the
identity, `x509.CreateCertificate`, `x509.ParseCertificate`) succeeds. -/
structure CertEnv where
  keyGenOk : Bool
  serialGenOk : Bool
  uriParseOk : Bool
  createOk : Bool
  parseCertOk : Bool
deriving DecidableEq, Repr

/-- The claim-relevant fields of the leaf certificate template
`GenerateCert` fills in (organization, key usage and timestamps omitted:
constant, not mentioned by any claim beyond the 1-year validity). -/
structure Cert where
  identityURI : String
  dnsNames : List String
  ipAddresses : List String
  extKeyUsage : List ExtKeyUsage
  validityYears : Nat
deriving DecidableEq, Repr

/-- `pki.GenerateCert(ca, identity, isServer, isClient)` (part_010): mint a
leaf with the identity URI SAN, `localhost` DNS SAN, loopback IP SANs,
1-year validity, and EKU chosen by the role flags — both, server-only,
client-only, or (when both flags are false) no EKU at all; the function
performs no validation of the flags. -/
def GenerateCert (env : CertEnv) (identity : String) (isServer isClient : Bool) :
    Except String Cert :=
  if env.keyGenOk = false then .error ("generate key")
  else if env.serialGenOk = false then .error ("generate serial")
  else if env.uriParseOk = false then .error ("parse identity URI")
  else
    let eku :=
      if isServer && isClient then [ExtKeyUsage.serverAuth, ExtKeyUsage.clientAuth]
      else if isServer then [ExtKeyUsage.serverAuth]
      else if isClient then [ExtKeyUsage.clientAuth]
      else []
    if env.createOk = false then .error ("create certificate")
    else if env.parseCertOk = false then .error ("parse certificate")
    else .ok { identityURI := identity,
               dnsNames := [("localhost")],
               ipAddresses := [("127.0.0.1"), ("::1")],
               extKeyUsage := eku,
               validityYears := 1 }

end Pki

namespace A2aexec

/-- One element of the LLM provider's stream
(`llm.StreamEvent {Content, Done, Error}`). -/
structure LlmStreamEvent where
  content : String
  done : Bool
  error : Option String
deriving DecidableEq, Repr

/-- The A2A task states the executor emits. -/
inductive TaskState
  | working
  | completed
  | failed
  | canceled
deriving DecidableEq, Repr

/-- A status-update event written to the event queue
(`a2a.NewStatusUpdateEvent` with a single agent-role text part;
`Final` defaults to false and is set on terminal events). -/
structure StatusUpdateEvent where
  state : TaskState
  text : String
  final : Bool
deriving DecidableEq, Repr

/-- `Executor.writeError` (part_014): a final FAILED status update carrying
the error text. -/
def writeError (errText : String) : StatusUpdateEvent :=
  { state := .failed, text := errText, final := true }

/-- The loop body of `Executor.executeStreaming` (part_014), accumulating
`fullResponse` in `acc` and consuming the provider's event channel in
order.  Queue writes are modelled as succeeding (their accumulated list is
the first component); the Go function's returned error is then `nil` on
every path, including the error-event path, where the failure is reported
only inside the final event. -/
def executeStreamingAux (acc : String) : List LlmStreamEvent → List StatusUpdateEvent
  | [] => [{ state := .completed, text := acc, final := true }]
  | e :: rest =>
    match e.error with
    | some err => [writeError err]
    | none =>
      let acc' := if e.content ≠ ("") then acc ++ e.content else acc
      let emitted :=
        if e.content ≠ ("")
        then [{ state := TaskState.working, text := e.content, final := false }]
        else ([] : List StatusUpdateEvent)
      if e.done then emitted ++ [{ state := .completed, text := acc', final := true }]
      else emitted ++ executeStreamingAux acc' rest

/-- `Executor.executeStreaming`: consume the stream with an empty
accumulator; the second component is the value `Execute` returns. -/
def executeStreaming (events : List LlmStreamEvent) :
    List StatusUpdateEvent × Option String :=
  (executeStreamingAux ("") events, none)

/-- Specification-side helper: one WORKING status update per event with
non-empty chunk content, in order. -/
def chunkEvents : List LlmStreamEvent → List StatusUpdateEvent
  | [] => []
  | e :: rest =>
    (if e.content ≠ ("")
     then [{ state := TaskState.working, text := e.content, final := false }]
     else ([] : List StatusUpdateEvent)) ++ chunkEvents rest

/-- Specification-side helper: in-order concatenation of all chunk
contents. -/
def concatChunks : List LlmStreamEvent → String
  | [] => ("")
  | e :: rest => e.content ++ concatChunks rest

end A2aexec

/-! ### Helper lemmas: the task counter under the bracketing discipline -/

namespace Control

/-- `wrap32` is the identity on the `int32` range. -/
lemma wrap32_eq {v : Int} (h1 : -2147483648 ≤ v) (h2 : v < 2147483648) :
    wrap32 v = v := by
  unfold wrap32
  have h3 : (0 : Int) ≤ v + 2147483648 := by omega
  have h4 : v + 2147483648 < 4294967296 := by omega
  rw [Int.emod_eq_of_lt h3 h4]
  omega

/-- Under the bracketing discipline the counter tracks the exact
increment/decrement balance and never wraps. -/
lemma runFrom_activeTasks :
    ∀ (ops : List Op) (s : State) (bal : Nat),
      s.activeTasks = (bal : Int) →
      (bal : Int) + ops.length < 2147483648 →
      brackOk ops bal = true →
      0 ≤ (runFrom s ops).activeTasks := by
  intro ops
  induction ops with
  | nil =>
    intro s bal hs _ _
    simp only [runFrom]
    rw [hs]
    exact Int.natCast_nonneg bal
  | cons op rest ih =>
    intro s bal hs hlen hb
    have hlen' : ((bal : Int) + 1) + rest.length < 2147483648 := by
      simp only [List.length_cons] at hlen
      push_cast at hlen ⊢
      omega
    cases op with
    | inc =>
      have hw : wrap32 (s.activeTasks + 1) = ((bal : Int) + 1) := by
        rw [hs]
        exact wrap32_eq (by omega) (by omega)
      refine ih (applyOp s .inc) (bal + 1) ?_ ?_ ?_
      · show wrap32 (s.activeTasks + 1) = ((bal + 1 : Nat) : Int)
        rw [hw]
        push_cast
        ring
      · push_cast at hlen' ⊢
        omega
      · simpa [brackOk] using hb
    | dec =>
      simp only [brackOk, Bool.and_eq_true, bne_iff_ne, ne_eq] at hb
      obtain ⟨hbal, hb'⟩ := hb
      have hbal1 : 1 ≤ bal := Nat.one_le_iff_ne_zero.mpr hbal
      have hw : wrap32 (s.activeTasks - 1) = ((bal : Int) - 1) := by
        rw [hs]
        refine wrap32_eq (by omega) (by omega)
      refine ih (applyOp s .dec) (bal - 1) ?_ ?_ ?_
      · show wrap32 (s.activeTasks - 1) = ((bal - 1 : Nat) : Int)
        rw [hw]
        push_cast [hbal1]
        ring
      · push_cast [hbal1] at hlen' ⊢
        omega
      · exact hb'
    | setReady =>
      refine ih (applyOp s .setReady) bal ?_ (by omega) (by simpa [brackOk] using hb)
      simpa [applyOp, State.SetReady] using hs
    | setDraining =>
      refine ih (applyOp s .setDraining) bal ?_ (by omega) (by simpa [brackOk] using hb)
      simpa [applyOp, State.SetDraining] using hs
    | setStopped =>
      refine ih (applyOp s .setStopped) bal ?_ (by omega) (by simpa [brackOk] using hb)
      simpa [applyOp, State.SetStopped] using hs

end Control

namespace Control

end Control

namespace Control

end Control

namespace Quic

/-- Goroutine A's step preserves the race invariant. -/
lemma raceInv_stepA {s : RaceState} (h : raceInv s) : raceInv (stepA s) := by
  obtain ⟨s0, s1, s2, s3, s4, s5, s6, s7, s8⟩ := s
  unfold raceInv stepA at *
  cases s1 <;> cases s0 <;> simp_all <;> aesop

/-- Goroutine B's step preserves the race invariant. -/
lemma raceInv_stepB {s : RaceState} (h : raceInv s) : raceInv (stepB s) := by
  obtain ⟨s0, s1, s2, s3, s4, s5, s6, s7, s8⟩ := s
  unfold raceInv stepB at *
  cases s2 <;> cases s0 <;> simp_all <;> aesop

/-- The initial race state satisfies the invariant. -/
lemma raceInv_init : raceInv raceInit := by
  unfold raceInv raceInit
  simp

/-- Running any schedule preserves the invariant. -/
lemma raceInv_runFrom (sched : List Bool) :
    ∀ s : RaceState, raceInv s → raceInv (raceRunFrom s sched) := by
  induction sched with
  | nil => intro s h; exact h
  | cons t rest ih =>
    intro s h
    unfold raceRunFrom
    cases t
    · exact ih _ (raceInv_stepB h)
    · exact ih _ (raceInv_stepA h)

/-- In any invariant state where both goroutines have finished, the pool
holds exactly one connection, both callers got it, and any other created
connection was closed by its creator. -/
lemma race_final {s : RaceState} (h : raceInv s)
    (hA : s.pcA = .done) (hB : s.pcB = .done) :
    ∃ w, s.pool = some w ∧ s.retA = some w ∧ s.retB = some w ∧
      (s.createdA = true → w = .connA ∨ s.closedA = true) ∧
      (s.createdB = true → w = .connB ∨ s.closedB = true) ∧
      (s.closedA = true → w ≠ .connA) ∧
      (s.closedB = true → w ≠ .connB) := by
  obtain ⟨h0, h1, h2, h3, h4, h5, hp1, hp2, h6, h7, h8, h9, h10, h11⟩ := h
  obtain ⟨cA, hcA⟩ := Option.isSome_iff_exists.mp (h10 hA)
  obtain ⟨cB, hcB⟩ := Option.isSome_iff_exists.mp (h11 hB)
  obtain ⟨-, hpoolA⟩ := h8 cA hcA
  obtain ⟨-, hpoolB⟩ := h9 cB hcB
  refine ⟨cA, hpoolA, hcA, ?_, ?_, ?_, ?_, ?_⟩
  · rw [hcB]
    congr 1
    rw [hpoolA] at hpoolB
    exact (Option.some_inj.mp hpoolB).symm
  · intro hc
    rcases h6 ⟨hc, hA⟩ with hp | hcl
    · left
      rw [hp] at hpoolA
      exact Option.some_inj.mp hpoolA.symm
    · right
      exact hcl
  · intro hc
    rcases h7 ⟨hc, hB⟩ with hp | hcl
    · left
      rw [hp] at hpoolA
      exact Option.some_inj.mp hpoolA.symm
    · right
      exact hcl
  · intro hcl
    have hne := (h2 hcl).2.2.2
    intro hw
    rw [hw] at hpoolA
    exact hne hpoolA
  · intro hcl
    have hne := (h3 hcl).2.2.2
    intro hw
    rw [hw] at hpoolA
    exact hne hpoolA

end Quic

namespace Quic

/-- An unknown-type stream is closed and everything else the loop does —
deliveries and connection deregistration — is as if the stream had never
arrived. -/
lemma handleConnection_unknown :
    ∀ (pre post : List AcceptOutcome) (id ty : Nat),
      ¬(ty = StreamTypeControl ∨ ty = StreamTypeA2A) →
      AcceptOutcome.acceptError ∉ pre →
      (handleConnection (pre ++ AcceptOutcome.stream id ty :: post)).delivered =
          (handleConnection (pre ++ post)).delivered ∧
        (handleConnection (pre ++ AcceptOutcome.stream id ty :: post)).connDeregistered =
          (handleConnection (pre ++ post)).connDeregistered ∧
        id ∈ (handleConnection (pre ++ AcceptOutcome.stream id ty :: post)).closedStreams := by
  intro pre
  induction pre with
  | nil =>
    intro post id ty hty _
    simp only [List.nil_append]
    refine ⟨?_, ?_, ?_⟩
    · simp [handleConnection, hty]
    · simp [handleConnection, hty]
    · simp [handleConnection, hty]
  | cons a pre ih =>
    intro post id ty hty hpre
    have hane : a ≠ AcceptOutcome.acceptError := by
      intro h
      exact hpre (by rw [h]; exact List.mem_cons_self _ _)
    have hpre' : AcceptOutcome.acceptError ∉ pre := by
      intro h
      exact hpre (List.mem_cons_of_mem _ h)
    obtain ⟨hd, hc, hm⟩ := ih post id ty hty hpre'
    cases a with
    | acceptError => exact absurd rfl hane
    | stream id2 ty2 =>
      by_cases hk : ty2 = StreamTypeControl ∨ ty2 = StreamTypeA2A
      · refine ⟨?_, ?_, ?_⟩
        · simp only [List.cons_append, handleConnection, if_pos hk, List.append_eq]
          rw [hd]
        · simp only [List.cons_append, handleConnection, if_pos hk, List.append_eq]
          rw [hc]
        · simpa only [List.cons_append, handleConnection, if_pos hk, List.append_eq] using hm
      · refine ⟨?_, ?_, ?_⟩
        · simp only [List.cons_append, handleConnection, if_neg hk, List.append_eq]
          rw [hd]
        · simp only [List.cons_append, handleConnection, if_neg hk, List.append_eq]
          rw [hc]
        · simp only [List.cons_append, handleConnection, if_neg hk, List.append_eq]
          exact List.mem_cons_of_mem _ hm

end Quic

namespace A2aexec

/-- The streaming loop, started with any accumulator, over a provider
sequence that terminates with its first done-or-error event: chunk events
for each non-empty chunk, then the appropriate final event. -/
lemma executeStreamingAux_spec :
    ∀ (body : List LlmStreamEvent) (last : LlmStreamEvent) (acc : String),
      (∀ e ∈ body, e.error = none ∧ e.done = false) →
      (last.error = none → last.done = true →
        executeStreamingAux acc (body ++ [last]) =
          chunkEvents (body ++ [last]) ++
            [{ state := .completed,
               text := acc ++ concatChunks (body ++ [last]), final := true }]) ∧
      (∀ err, last.error = some err →
        executeStreamingAux acc (body ++ [last]) =
          chunkEvents body ++ [writeError err]) := by
  intro body
  induction body with
  | nil =>
    intro last acc _
    constructor
    · intro herr hdone
      by_cases hctext : last.content = ("")
      · simp [executeStreamingAux, chunkEvents, concatChunks, herr, hdone, hctext,
          String.append_empty]
      · simp [executeStreamingAux, chunkEvents, concatChunks, herr, hdone, hctext,
          String.append_empty]
    · intro err herr
      simp [executeStreamingAux, chunkEvents, herr]
  | cons e body ih =>
    intro last acc hbody
    have he : e.error = none ∧ e.done = false := hbody e (List.mem_cons_self _ _)
    have hbody' : ∀ x ∈ body, x.error = none ∧ x.done = false := fun x hx =>
      hbody x (List.mem_cons_of_mem _ hx)
    by_cases hctext : e.content = ("")
    · have hacc := ih last acc hbody'
      constructor
      · intro herr hdone
        have h1 := hacc.1 herr hdone
        simp only [List.cons_append, executeStreamingAux, he.1, he.2, hctext,
          chunkEvents, concatChunks]
        simp only [hctext] at h1 ⊢
        simp [h1, String.empty_append]
      · intro err herr
        have h2 := hacc.2 err herr
        simp only [List.cons_append, executeStreamingAux, he.1, he.2, hctext, chunkEvents]
        simp [h2]
    · have hacc := ih last (acc ++ e.content) hbody'
      constructor
      · intro herr hdone
        have h1 := hacc.1 herr hdone
        simp only [List.cons_append, executeStreamingAux, he.1, he.2,
          chunkEvents, concatChunks]
        simp [hctext, h1, String.append_assoc]
      · intro err herr
        have h2 := hacc.2 err herr
        simp only [List.cons_append, executeStreamingAux, he.1, he.2, chunkEvents]
        simp [hctext, h2]

end A2aexec

/-! ### Claim theorems -/

namespace Serve

/-- C1: `triggerShutdown(graceful, timeout, reason)` sets the node state to
DRAINING first; schedules the forced hard-stop watchdog exactly when
`graceful ∧ timeout > 0`; cancels the root scope and then closes the
`MuxListener` (which closes the acceptor channels) strictly before either
RPC server's stop is awaited; and sets STOPPED only after both stops have
returned.  Closing the acceptor channels before awaiting graceful-stop is
what lets the servers' `Accept` return end-of-input, so the stops can
finish regardless of in-flight calls. -/
theorem triggerShutdown_order (graceful : Bool) (timeout : Int) :
    (triggerShutdown graceful timeout).head? = some ShutdownEvent.setDraining ∧
      (ShutdownEvent.scheduleForceStopWatchdog timeout ∈ triggerShutdown graceful timeout ↔
        graceful = true ∧ 0 < timeout) ∧
      idxOfEvent (triggerShutdown graceful timeout) ShutdownEvent.cancelRootScope <
        idxOfEvent (triggerShutdown graceful timeout) ShutdownEvent.closeListener ∧
      ∀ ev ∈ stopEvents graceful,
        idxOfEvent (triggerShutdown graceful timeout) ShutdownEvent.closeListener <
            idxOfEvent (triggerShutdown graceful timeout) ev ∧
          idxOfEvent (triggerShutdown graceful timeout) ev <
            idxOfEvent (triggerShutdown graceful timeout) ShutdownEvent.setStopped := by
  rcases graceful <;> by_cases ht : (0 : Int) < timeout <;>
    simp [triggerShutdown, stopServers, stopEvents, idxOfEvent, ht]

/-- Witness for C1 at `graceful = true`, `timeout = 30s`. -/
theorem triggerShutdown_order_witness :
    ShutdownEvent.gracefulStopControl ∈ stopEvents true ∧
      idxOfEvent (triggerShutdown true 30000000000) ShutdownEvent.closeListener <
        idxOfEvent (triggerShutdown true 30000000000) ShutdownEvent.gracefulStopControl :=
  ⟨by decide,
    ((triggerShutdown_order true 30000000000).2.2.2 ShutdownEvent.gracefulStopControl
      (by decide)).1⟩

end Serve

namespace Control

/-- C3 counterexample: `DecrementTasks` decrements unconditionally, so a
single decrement from the initial state drives `GetActiveTasks` to `-1`. -/
theorem decrement_unguarded_counterexample :
    (runOps [Op.dec]).GetActiveTasks < 0 := by
  decide

/-- C3 amended: whenever decrements never outnumber increments (each task
bracketed by an increment/decrement pair, which is how the node uses the
counter) and the run is shorter than `2^31` operations (no `int32`
overflow), the active-task counter stays non-negative. -/
theorem activeTasks_nonneg (ops : List Op)
    (h1 : brackOk ops 0 = true) (h2 : ops.length < 2147483648) :
    0 ≤ (runOps ops).GetActiveTasks :=
  runFrom_activeTasks ops NewState 0 rfl (by push_cast; omega) h1

/-- Witness for C3 (amended) on one bracketed task. -/
theorem activeTasks_nonneg_witness :
    brackOk [Op.inc, Op.dec] 0 = true ∧
      ([Op.inc, Op.dec] : List Op).length < 2147483648 ∧
      0 ≤ (runOps [Op.inc, Op.dec]).GetActiveTasks :=
  ⟨by decide, by decide, activeTasks_nonneg [Op.inc, Op.dec] (by decide) (by decide)⟩

end Control

namespace Quic

/-- C5: the pool holds at most one connection per address by construction
(a Go map entry, here an `Option`); for any interleaving of two concurrent
`getOrCreateConn` calls for the same address that both complete, the pool
ends up with exactly one connection, both callers return exactly that
connection, any other connection a loser created it also closed, and the
pooled connection is never the closed one.  Separately, the monitor
goroutine's `removeConn` deletes exactly that address's entry. -/
theorem muxDialer_pool_race (sched : List Bool)
    (hA : (raceRun sched).pcA = .done) (hB : (raceRun sched).pcB = .done) :
    (∃ w, (raceRun sched).pool = some w ∧
      (raceRun sched).retA = some w ∧ (raceRun sched).retB = some w ∧
      ((raceRun sched).createdA = true → w = .connA ∨ (raceRun sched).closedA = true) ∧
      ((raceRun sched).createdB = true → w = .connB ∨ (raceRun sched).closedB = true) ∧
      ((raceRun sched).closedA = true → w ≠ .connA) ∧
      ((raceRun sched).closedB = true → w ≠ .connB)) ∧
    ∀ (conns : String → Option Nat) (addr other : String),
      removeConn conns addr addr = none ∧
        (other ≠ addr → removeConn conns addr other = conns other) := by
  constructor
  · exact race_final (raceInv_runFrom sched raceInit raceInv_init) hA hB
  · intro conns addr other
    refine ⟨by simp [removeConn], fun h => ?_⟩
    simp [removeConn, h]

/-- Witness for C5 on the schedule where A dials and publishes first. -/
theorem muxDialer_pool_race_witness :
    ∃ w, (raceRun [true, true, true, false]).pool = some w ∧
      (raceRun [true, true, true, false]).retA = some w ∧
      (raceRun [true, true, true, false]).retB = some w ∧
      ((raceRun [true, true, true, false]).createdA = true →
        w = .connA ∨ (raceRun [true, true, true, false]).closedA = true) ∧
      ((raceRun [true, true, true, false]).createdB = true →
        w = .connB ∨ (raceRun [true, true, true, false]).closedB = true) ∧
      ((raceRun [true, true, true, false]).closedA = true → w ≠ .connA) ∧
      ((raceRun [true, true, true, false]).closedB = true → w ≠ .connB) :=
  (muxDialer_pool_race [true, true, true, false] (by decide) (by decide)).1

/-- C6: a sub-stream whose type byte is neither Control (0x01) nor A2A
(0x02) is closed by the per-connection loop, while the connection is
neither deregistered nor otherwise disturbed: every other stream, before
or after, is delivered exactly as if the unknown stream had never
arrived. -/
theorem unknown_stream_type_preserved (pre post : List AcceptOutcome) (id ty : Nat)
    (hty : ty ≠ StreamTypeControl ∧ ty ≠ StreamTypeA2A)
    (hpre : AcceptOutcome.acceptError ∉ pre) :
    id ∈ (handleConnection (pre ++ AcceptOutcome.stream id ty :: post)).closedStreams ∧
      (handleConnection (pre ++ AcceptOutcome.stream id ty :: post)).connDeregistered =
        (handleConnection (pre ++ post)).connDeregistered ∧
      (handleConnection (pre ++ AcceptOutcome.stream id ty :: post)).delivered =
        (handleConnection (pre ++ post)).delivered := by
  have h := handleConnection_unknown pre post id ty (by tauto) hpre
  exact ⟨h.2.2, h.2.1, h.1⟩

/-- Witness for C6: a 0xFF-typed stream between a Control and an A2A
stream. -/
theorem unknown_stream_type_preserved_witness :
    9 ∈ (handleConnection ([AcceptOutcome.stream 7 1] ++
        AcceptOutcome.stream 9 255 :: [AcceptOutcome.stream 8 2])).closedStreams ∧
      (handleConnection ([AcceptOutcome.stream 7 1] ++
          AcceptOutcome.stream 9 255 :: [AcceptOutcome.stream 8 2])).connDeregistered =
        (handleConnection ([AcceptOutcome.stream 7 1] ++
          [AcceptOutcome.stream 8 2])).connDeregistered ∧
      (handleConnection ([AcceptOutcome.stream 7 1] ++
          AcceptOutcome.stream 9 255 :: [AcceptOutcome.stream 8 2])).delivered =
        (handleConnection ([AcceptOutcome.stream 7 1] ++
          [AcceptOutcome.stream 8 2])).delivered :=
  unknown_stream_type_preserved [AcceptOutcome.stream 7 1] [AcceptOutcome.stream 8 2]
    9 255 (by decide) (by decide)

/-- C7: `Dial` retries a failed stream-open exactly once: a first-open
success means no eviction and a single attempt; a first-open failure means
one eviction and one reconnect, after which a second success is returned,
a second failure is surfaced (wrapped as "open stream after reconnect"),
and a reconnect failure is surfaced with no further open attempt. -/
theorem dial_retry_once (env : DialEnv) (c : Nat) (hacq : env.acquire1 = .ok c) :
    (∀ s, env.open1 = .ok s →
      Dial env = { result := .ok s, evictions := 0, openAttempts := 1 }) ∧
      (∀ e c2 s, env.open1 = .error e → env.acquire2 = .ok c2 → env.open2 = .ok s →
        Dial env = { result := .ok s, evictions := 1, openAttempts := 2 }) ∧
      (∀ e c2 e2, env.open1 = .error e → env.acquire2 = .ok c2 → env.open2 = .error e2 →
        Dial env = { result := .error (("open stream after reconnect: ") ++ e2),
                     evictions := 1, openAttempts := 2 }) ∧
      (∀ e e2, env.open1 = .error e → env.acquire2 = .error e2 →
        Dial env = { result := .error e2, evictions := 1, openAttempts := 1 }) := by
  obtain ⟨a1, o1, a2, o2⟩ := env
  simp only at hacq
  subst hacq
  refine ⟨?_, ?_, ?_, ?_⟩
  · intro s h
    simp only at h
    subst h
    rfl
  · intro e c2 s h1 h2 h3
    simp only at h1 h2 h3
    subst h1
    subst h2
    subst h3
    rfl
  · intro e c2 e2 h1 h2 h3
    simp only at h1 h2 h3
    subst h1
    subst h2
    subst h3
    rfl
  · intro e e2 h1 h2
    simp only at h1 h2
    subst h1
    subst h2
    rfl

/-- Witness for C7: stale pooled connection, successful reconnect. -/
theorem dial_retry_once_witness :
    Dial { acquire1 := .ok 1, open1 := .error ("stale"), acquire2 := .ok 2, open2 := .ok 7 } =
      { result := .ok 7, evictions := 1, openAttempts := 2 } :=
  (dial_retry_once
    { acquire1 := .ok 1, open1 := .error ("stale"), acquire2 := .ok 2, open2 := .ok 7 }
    1 rfl).2.1 ("stale") 2 7 rfl rfl rfl

/-- C10: `Close` on the per-stream-type listener handle returns `nil` and
changes nothing: the mux's closed flag, both acceptor channels, the tracked
connection set and the underlying transport listener are exactly as
before, so one gRPC server closing its handle cannot disturb the other
server or the shared multiplexer. -/
theorem streamListener_close_noop (m : MuxListenerState) :
    (streamListenerClose m).2 = none ∧
      (streamListenerClose m).1.closed = m.closed ∧
      (streamListenerClose m).1.controlChan = m.controlChan ∧
      (streamListenerClose m).1.a2aChan = m.a2aChan ∧
      (streamListenerClose m).1.conns = m.conns ∧
      (streamListenerClose m).1.qlClosed = m.qlClosed :=
  ⟨rfl, rfl, rfl, rfl, rfl, rfl⟩

end Quic

namespace Pki

/-- C8 counterexample: `GenerateCert` performs no role-flag validation —
with both `isServer` and `isClient` false (and every fallible step
succeeding) it still succeeds, minting a leaf with an empty
extended-key-usage list. -/
theorem generateCert_no_role_check_counterexample :
    ∃ cert, GenerateCert
        { keyGenOk := true, serialGenOk := true, uriParseOk := true,
          createOk := true, parseCertOk := true }
        ("spiffe://latis/node/test") false false = .ok cert ∧
      cert.extKeyUsage = [] :=
  ⟨_, rfl, rfl⟩

/-- C8 amended: `GenerateCert` succeeds for every combination of role flags
(given its key/serial/URI/encode steps succeed) and fills the EKU strictly
per flags — both roles, server-only, client-only, or empty when both flags
are false; the "at least one of isServer/isClient" requirement is a caller
obligation the function does not enforce. -/
theorem generateCert_eku_per_flags (env : CertEnv) (identity : String)
    (isServer isClient : Bool)
    (h : env = { keyGenOk := true, serialGenOk := true, uriParseOk := true,
                 createOk := true, parseCertOk := true }) :
    GenerateCert env identity isServer isClient =
      .ok { identityURI := identity,
            dnsNames := [("localhost")],
            ipAddresses := [("127.0.0.1"), ("::1")],
            extKeyUsage :=
              if isServer && isClient then [ExtKeyUsage.serverAuth, ExtKeyUsage.clientAuth]
              else if isServer then [ExtKeyUsage.serverAuth]
              else if isClient then [ExtKeyUsage.clientAuth]
              else [],
            validityYears := 1 } := by
  subst h
  rfl

/-- Witness for C8 (amended): a server-only leaf. -/
theorem generateCert_eku_per_flags_witness :
    GenerateCert
        { keyGenOk := true, serialGenOk := true, uriParseOk := true,
          createOk := true, parseCertOk := true }
        ("spiffe://latis/node/w") true false =
      .ok { identityURI := ("spiffe://latis/node/w"),
            dnsNames := [("localhost")],
            ipAddresses := [("127.0.0.1"), ("::1")],
            extKeyUsage := [ExtKeyUsage.serverAuth],
            validityYears := 1 } := by
  have h := generateCert_eku_per_flags
    { keyGenOk := true, serialGenOk := true, uriParseOk := true,
      createOk := true, parseCertOk := true }
    ("spiffe://latis/node/w") true false rfl
  simpa using h

end Pki

namespace A2aexec

/-- C9: over a provider stream of chunk events terminated by its first
done-or-error event, the streaming executor writes one WORKING status
update per non-empty chunk; on the done event it writes a final COMPLETED
event whose text is the in-order concatenation of every chunk seen; on an
error event it writes instead a final FAILED event carrying the error
text; and in both cases `Execute`'s own return value is success (`none`),
the failure being reported only inside the event. -/
theorem executor_streaming_spec (body : List LlmStreamEvent) (last : LlmStreamEvent)
    (hbody : ∀ e ∈ body, e.error = none ∧ e.done = false) :
    (last.error = none → last.done = true →
      executeStreaming (body ++ [last]) =
        (chunkEvents (body ++ [last]) ++
          [{ state := .completed, text := concatChunks (body ++ [last]), final := true }],
         none)) ∧
      ∀ err, last.error = some err →
        executeStreaming (body ++ [last]) =
          (chunkEvents body ++ [{ state := .failed, text := err, final := true }], none) := by
  have h := executeStreamingAux_spec body last ("") hbody
  constructor
  · intro herr hdone
    have h1 := h.1 herr hdone
    unfold executeStreaming
    rw [h1, String.empty_append]
  · intro err herr
    have h2 := h.2 err herr
    unfold executeStreaming
    rw [h2]
    rfl

/-- Witness for C9 on a two-chunk stream ending in a done event. -/
theorem executor_streaming_spec_witness :
    executeStreaming
        [{ content := ("Hel"), done := false, error := none },
         { content := ("lo"), done := true, error := none }] =
      ([{ state := TaskState.working, text := ("Hel"), final := false },
        { state := TaskState.working, text := ("lo"), final := false },
        { state := TaskState.completed, text := ("Hello"), final := true }], none) := by
  have h := (executor_streaming_spec
      [{ content := ("Hel"), done := false, error := none }]
      { content := ("lo"), done := true, error := none }
      (by decide)).1 rfl rfl
  rw [List.singleton_append] at h
  rw [h]
  rfl

end A2aexec
